import Mathlib

set_option linter.unusedVariables false

/-!
Verification of the `SimpleTransfromerTTS` architecture core (`model.py`).

The embedding has three layers:

* a value-level model of the additive attention masks built at the top of
  `TransformerTTS.forward` (`src_key_padding_mask`, `src_mask`,
  `tgt_key_padding_mask`, `tgt_mask`, `memory_mask`) and of the output
  masking applied to `mel_linear`, `mel_postnet` and `gate`;
* a shape-level model of every layer used by `TransformerTTS.forward`
  (embedding, linear, 1-d convolution, batch/layer norm, multi-head
  attention, transpose, squeeze, broadcasting addition, `masked_fill`),
  composed exactly as the source composes the modules;
* a step-level model of the autoregressive `TransformerTTS.inference`
  loop, parametric in the gate logits the network produces at each step,
  with the real sigmoid applied to them the way `torch.sigmoid` is.

Mask tensors in the source hold only the two float values `0` and `-inf`,
so mask entries are modelled by the two-valued type `MaskV`.
-/

/-- An entry of an additive attention mask: the source only ever writes the
float values `0` (attend) and `-inf` (forbid) into mask tensors. -/
inductive MaskV : Type where
  | zero : MaskV
  | ninf : MaskV
deriving DecidableEq, Repr

/-- Float addition restricted to `{0, -inf}`: the sum is `-inf` unless both
summands are `0`.  `nn.MultiheadAttention` merges a float `attn_mask` with a
float `key_padding_mask` by adding them after broadcasting. -/
def MaskV.add : MaskV → MaskV → MaskV
  | .zero, .zero => .zero
  | _, _ => .ninf

/-- Modelled from the spec: `get_mask_from_sequence_lengths` is imported from
`pad_mask_utils`, which is not part of the sources; per the spec's
padding-mask rule ("for each batch row, positions ≥ true length get −∞,
others 0", applied to the negation of this boolean mask), entry `(n, j)` is
`true` exactly when `j` is below row `n`'s true length.  The `max_length`
argument fixes the tensor's second dimension and does not affect entries. -/
def get_mask_from_sequence_lengths (lengths : Nat → Nat) (max_length : Nat) :
    Nat → Nat → Bool :=
  fun n j => decide (j < lengths n)

/-- Entry `(i, j)` of `torch.triu(torch.full ((r, c), True), diagonal=d)`:
`true` exactly on and above the `d`-th diagonal, i.e. when `i + d ≤ j`. -/
def triu_true (d : Nat) : Nat → Nat → Bool :=
  fun i j => decide (i + d ≤ j)

/-- `self.src_key_padding_mask`: zeros of shape `(N, S)` with `-inf` filled
where `get_mask_from_sequence_lengths text_len S` is false. -/
def src_key_padding_mask (text_len : Nat → Nat) (S : Nat) :
    Nat → Nat → MaskV :=
  fun n j =>
    if !(get_mask_from_sequence_lengths text_len S n j) then .ninf else .zero

/-- `self.src_mask`: zeros of shape `(S, S)` with `-inf` filled on the
strictly-upper triangle (`torch.triu` with `diagonal=1`). -/
def src_mask (S : Nat) : Nat → Nat → MaskV :=
  fun i j => if triu_true 1 i j then .ninf else .zero

/-- `self.tgt_key_padding_mask`: zeros of shape `(N, L)` with `-inf` filled
where `get_mask_from_sequence_lengths mel_len L` is false. -/
def tgt_key_padding_mask (mel_len : Nat → Nat) (L : Nat) :
    Nat → Nat → MaskV :=
  fun n t =>
    if !(get_mask_from_sequence_lengths mel_len L n t) then .ninf else .zero

/-- `self.tgt_mask`: zeros of shape `(L, L)` with `-inf` filled on the
strictly-upper triangle. -/
def tgt_mask (L : Nat) : Nat → Nat → MaskV :=
  fun i j => if triu_true 1 i j then .ninf else .zero

/-- `self.memory_mask`: zeros of shape `(L, S)` with `-inf` filled on the
strictly-upper triangle of the rectangle. -/
def memory_mask (L S : Nat) : Nat → Nat → MaskV :=
  fun i j => if triu_true 1 i j then .ninf else .zero

/-- The total additive mask each `EncoderBlock`'s self-attention applies at
batch `n`, query `i`, key `j`: `TransformerTTS.forward` passes
`attn_mask = self.src_mask` and `key_padding_mask = self.src_key_padding_mask`
to every encoder block, and `nn.MultiheadAttention` adds the two float
masks (the padding mask broadcast over the query axis). -/
def encoder_self_attn_mask (text_len : Nat → Nat) (S : Nat) :
    Nat → Nat → Nat → MaskV :=
  fun n i j => MaskV.add (src_mask S i j) (src_key_padding_mask text_len S n j)

/-! ### Output masking at the end of `TransformerTTS.forward`

`bool_mel_mask = self.tgt_key_padding_mask.ne(0).unsqueeze(-1).repeat(1, 1,
hp.mel_freq)`; its value at `(n, t, f)` does not depend on `f`, and the gate
variant `bool_mel_mask[:, :, 0].unsqueeze(-1)` has the same value, so both
are modelled by one boolean function of `(n, t)`.  Tensor values are
modelled as functions from indices to rationals. -/

/-- Entry `(n, t)` of `bool_mel_mask`: whether `tgt_key_padding_mask[n, t]`
differs from `0`, i.e. is `-inf`. -/
def bool_mel_mask (mel_len : Nat → Nat) (L : Nat) : Nat → Nat → Bool :=
  fun n t => decide (tgt_key_padding_mask mel_len L n t ≠ .zero)

/-- `mel_linear.masked_fill(bool_mel_mask, 0)` applied to the raw linear mel
projection `raw` (value at batch `n`, time `t`, frequency `f`). -/
def mel_linear_masked (raw : Nat → Nat → Nat → ℚ) (mel_len : Nat → Nat)
    (L : Nat) : Nat → Nat → Nat → ℚ :=
  fun n t f => if bool_mel_mask mel_len L n t then 0 else raw n t f

/-- `mel_postnet.masked_fill(bool_mel_mask, 0)` applied to the raw
`mel_linear + postnet(mel_linear)` sum `raw`. -/
def mel_postnet_masked (raw : Nat → Nat → Nat → ℚ) (mel_len : Nat → Nat)
    (L : Nat) : Nat → Nat → Nat → ℚ :=
  fun n t f => if bool_mel_mask mel_len L n t then 0 else raw n t f

/-- `gate.masked_fill(bool_mel_mask[:, :, 0].unsqueeze(-1), 1e3).squeeze(2)`
applied to the raw gate head output `raw` (the squeeze only removes the
trailing singleton dimension, so values are indexed by `(n, t)`).  `1e3` is
the rational `1000`. -/
def gate_masked (raw : Nat → Nat → ℚ) (mel_len : Nat → Nat) (L : Nat) :
    Nat → Nat → ℚ :=
  fun n t => if bool_mel_mask mel_len L n t then 1000 else raw n t

/-! ### Value-level model of `DecoderPreNet.forward`

`DecoderPreNet.forward` maps each mel frame through
`linear_1 → relu → F.dropout(p=0.5, training=True) → linear_2 → relu →
F.dropout(p=0.5, training=True)`.  Frames are modelled as functions from
coordinate indices to rationals; the affine maps carry their input
dimension and weights explicitly.  The `mode` argument stands for the
module's train/eval flag (`self.training`), which the source never
consults. -/

/-- `F.relu` on one scalar. -/
def relu (x : ℚ) : ℚ := max x 0

/-- `nn.Linear(d, ·)` on a vector `x`: row `j` of the output is
`⟨W j, x⟩ + b j` over the `d` input coordinates. -/
def linear_map (d : Nat) (W : Nat → Nat → ℚ) (b : Nat → ℚ)
    (x : Nat → ℚ) : Nat → ℚ :=
  fun j => (∑ i ∈ Finset.range d, W j i * x i) + b j

/-- `F.dropout(x, p, training)`: when `training` is true, coordinate `i` is
zeroed when the Bernoulli draw `keep i` is false and scaled by `1 / (1 - p)`
when it is true; when `training` is false the input passes unchanged. -/
def dropoutF (p : ℚ) (training : Bool) (keep : Nat → Bool)
    (x : Nat → ℚ) : Nat → ℚ :=
  fun i => if training then (if keep i then x i / (1 - p) else 0) else x i

/-- The learned parameters of `DecoderPreNet`: `linear_1 : mel_freq →
embedding_size` and `linear_2 : embedding_size → embedding_size`. -/
structure DecoderPreNet where
  mel_freq : Nat
  embedding_size : Nat
  W1 : Nat → Nat → ℚ
  b1 : Nat → ℚ
  W2 : Nat → Nat → ℚ
  b2 : Nat → ℚ

/-- `DecoderPreNet.forward` on one frame `x`.  `mode` is the module's
train/eval flag and `keep1`, `keep2` are the two Bernoulli draws of the two
`F.dropout` calls; both calls pass `training=True` literally, and the body
never reads `mode`. -/
def DecoderPreNet.forward (m : DecoderPreNet) (mode : Bool)
    (keep1 keep2 : Nat → Bool) (x : Nat → ℚ) : Nat → ℚ :=
  dropoutF (1/2) true keep2
    (fun i => relu
      (linear_map m.embedding_size m.W2 m.b2
        (dropoutF (1/2) true keep1
          (fun i => relu (linear_map m.mel_freq m.W1 m.b1 x i))) i))

/-! ### Shape-level model of the whole forward pass

Tensor shapes are lists of dimension sizes; each torch operation becomes a
partial function on shapes that returns `none` exactly when torch would
raise a shape error.  Element-wise operations (`relu`, `tanh`, every
`Dropout`) preserve shapes and are omitted from the shape pipelines. -/

/-- A tensor shape: the list of dimension sizes. -/
abbrev Shape : Type := List Nat

/-- The hyperparameter record `hp` imported from `hyperparams` (the module
is not part of the sources; its fields are those `model.py` reads). -/
structure HP where
  embedding_size : Nat
  encoder_embedding_size : Nat
  dim_feedforward : Nat
  encoder_kernel_size : Nat
  postnet_embedding_size : Nat
  postnet_kernel_size : Nat
  mel_freq : Nat
  text_num_embeddings : Nat
  max_mel_time : Nat

/-- Modelled from the spec: the configuration constraints the architecture
needs, not recorded in the sources because `hyperparams` is absent.  The
spec calls both convolution stacks "same-padding" (possible with
`padding=(k-1)/2` only for odd `k`), requires at least one mel-frequency
bin, and `nn.MultiheadAttention(embed_dim, num_heads=4)` requires
`4 ∣ embed_dim` at construction. -/
def HP.valid (hp : HP) : Prop :=
  Odd hp.encoder_kernel_size ∧ Odd hp.postnet_kernel_size ∧
    1 ≤ hp.mel_freq ∧ hp.embedding_size % 4 = 0

/-- `nn.Embedding(num_embeddings, dim)`: appends the embedding dimension. -/
def embeddingShape (num_embeddings dim : Nat) (s : Shape) : Option Shape :=
  some (s ++ [dim])

/-- `nn.Linear(din, dout)` on a 2-d or 3-d input: the last dimension must
equal `din` and becomes `dout`. -/
def linearShape (din dout : Nat) : Shape → Option Shape
  | [a, b] => if b = din then some [a, dout] else none
  | [a, b, c] => if c = din then some [a, b, dout] else none
  | _ => none

/-- `x.transpose(1, 2)` (equivalently `x.transpose(2, 1)`) on a 3-d input. -/
def transpose12Shape : Shape → Option Shape
  | [a, b, c] => some [a, c, b]
  | _ => none

/-- `nn.Conv1d(cin, cout, k, stride=1, padding=pad, dilation=1)` on
`(N, C, Lin)`: requires `C = cin` and a positive output length
`Lin + 2*pad - k + 1`. -/
def conv1dShape (cin cout k pad : Nat) : Shape → Option Shape
  | [n, c, l] =>
    if c = cin ∧ k ≤ l + 2 * pad then some [n, cout, l + 2 * pad + 1 - k]
    else none
  | _ => none

/-- `nn.BatchNorm1d(c)` on `(N, C, L)`: requires `C = c`. -/
def batchNorm1dShape (c : Nat) : Shape → Option Shape
  | [n, c2, l] => if c2 = c then some [n, c2, l] else none
  | _ => none

/-- `nn.LayerNorm(normalized_shape=d)` on a 3-d input: the last dimension
must equal `d`. -/
def layerNormShape (d : Nat) : Shape → Option Shape
  | [a, b, c] => if c = d then some [a, b, c] else none
  | _ => none

/-- `nn.MultiheadAttention(embed_dim=E, batch_first=True)` with float masks:
`query (N, Lq, E)`, `key`/`value` `(N, Lk, E)`, a 2-d `attn_mask` of shape
exactly `(Lq, Lk)` and a `key_padding_mask` of shape exactly `(N, Lk)`;
output `(N, Lq, E)`. -/
def mhaShape (E : Nat) (q k v am kpm : Shape) : Option Shape :=
  match q, k, v with
  | [n, lq, e], [n2, lk, e2], [n3, lv, e3] =>
    if e = E ∧ e2 = E ∧ e3 = E ∧ n2 = n ∧ n3 = n ∧ lv = lk ∧
        am = ([lq, lk] : Shape) ∧ kpm = ([n, lk] : Shape) then
      some [n, lq, E]
    else none
  | _, _, _ => none

/-- Broadcast of two dimension sizes: equal, or one of them is `1`. -/
def broadcast2 (a b : Nat) : Option Nat :=
  if a = b then some a else if a = 1 then some b
  else if b = 1 then some a else none

/-- Broadcast of two shapes, given reversed (trailing dimensions first). -/
def broadcastRev : List Nat → List Nat → Option (List Nat)
  | [], ys => some ys
  | xs, [] => some xs
  | x :: xs, y :: ys =>
    (broadcast2 x y).bind fun d => (broadcastRev xs ys).map fun r => d :: r

/-- Shape of a broadcast binary operation such as `+`. -/
def broadcastShape (x y : Shape) : Option Shape :=
  (broadcastRev (List.reverse x) (List.reverse y)).map List.reverse

/-- `x + y` on tensors: the broadcast of the two shapes. -/
def addShape (x y : Shape) : Option Shape := broadcastShape x y

/-- `x.masked_fill(mask, v)`: the mask must broadcast to `x`'s own shape,
which is preserved. -/
def maskedFillShape (x mask : Shape) : Option Shape :=
  if broadcastShape x mask = some x then some x else none

/-- `pos_codes[:k]` on a 2-d table: keeps the first `min rows k` rows. -/
def sliceRowsShape (k : Nat) : Shape → Option Shape
  | [a, b] => some [min a k, b]
  | _ => none

/-- `x.unsqueeze(-1)`: appends a singleton dimension. -/
def unsqueezeLastShape (s : Shape) : Option Shape :=
  some (s ++ [1])

/-- `x.repeat(1, 1, m)` on a 3-d input. -/
def repeat113Shape (m : Nat) : Shape → Option Shape
  | [a, b, c] => some [a, b, c * m]
  | _ => none

/-- `x[:, :, 0]` on a 3-d input: requires a nonempty last dimension. -/
def indexCol0Shape : Shape → Option Shape
  | [a, b, c] => if 1 ≤ c then some [a, b] else none
  | _ => none

/-- `x.squeeze(2)` on a 3-d input: drops the last dimension when it is 1. -/
def squeeze2Shape : Shape → Option Shape
  | [a, b, c] => some (if c = 1 then [a, b] else [a, b, c])
  | _ => none

/-- Shape of `EncoderPreNet.forward`: embedding → `linear_1` → transpose →
3 × (`conv` → `batch norm` → relu → dropout) → transpose → `linear_2`. -/
def EncoderPreNet.forwardShape (hp : HP) (text : Shape) : Option Shape := do
  let pad := (hp.encoder_kernel_size - 1) / 2
  let x ← embeddingShape hp.text_num_embeddings hp.encoder_embedding_size text
  let x ← linearShape hp.encoder_embedding_size hp.encoder_embedding_size x
  let x ← transpose12Shape x
  let x ← conv1dShape hp.encoder_embedding_size hp.encoder_embedding_size
    hp.encoder_kernel_size pad x
  let x ← batchNorm1dShape hp.encoder_embedding_size x
  let x ← conv1dShape hp.encoder_embedding_size hp.encoder_embedding_size
    hp.encoder_kernel_size pad x
  let x ← batchNorm1dShape hp.encoder_embedding_size x
  let x ← conv1dShape hp.encoder_embedding_size hp.encoder_embedding_size
    hp.encoder_kernel_size pad x
  let x ← batchNorm1dShape hp.encoder_embedding_size x
  let x ← transpose12Shape x
  linearShape hp.encoder_embedding_size hp.embedding_size x

/-- Shape of `DecoderPreNet.forward` over a whole `(N, L, F)` batch:
`linear_1` → relu → dropout → `linear_2` → relu → dropout. -/
def DecoderPreNet.forwardShape (hp : HP) (mel : Shape) : Option Shape := do
  let x ← linearShape hp.mel_freq hp.embedding_size mel
  linearShape hp.embedding_size hp.embedding_size x

/-- Shape of `PostNet.forward`: transpose → 5 × (`conv` → `batch norm` →
tanh → dropout) → `conv_6` → `bn_6` → dropout → transpose. -/
def PostNet.forwardShape (hp : HP) (s : Shape) : Option Shape := do
  let pad := (hp.postnet_kernel_size - 1) / 2
  let x ← transpose12Shape s
  let x ← conv1dShape hp.mel_freq hp.postnet_embedding_size
    hp.postnet_kernel_size pad x
  let x ← batchNorm1dShape hp.postnet_embedding_size x
  let x ← conv1dShape hp.postnet_embedding_size hp.postnet_embedding_size
    hp.postnet_kernel_size pad x
  let x ← batchNorm1dShape hp.postnet_embedding_size x
  let x ← conv1dShape hp.postnet_embedding_size hp.postnet_embedding_size
    hp.postnet_kernel_size pad x
  let x ← batchNorm1dShape hp.postnet_embedding_size x
  let x ← conv1dShape hp.postnet_embedding_size hp.postnet_embedding_size
    hp.postnet_kernel_size pad x
  let x ← batchNorm1dShape hp.postnet_embedding_size x
  let x ← conv1dShape hp.postnet_embedding_size hp.postnet_embedding_size
    hp.postnet_kernel_size pad x
  let x ← batchNorm1dShape hp.postnet_embedding_size x
  let x ← conv1dShape hp.postnet_embedding_size hp.mel_freq
    hp.postnet_kernel_size pad x
  let x ← batchNorm1dShape hp.mel_freq x
  transpose12Shape x

/-- Shape of `EncoderBlock.forward`: pre-norm self-attention with residual,
then pre-norm feed-forward with residual. -/
def EncoderBlock.forwardShape (hp : HP) (x am kpm : Shape) : Option Shape := do
  let xo ← layerNormShape hp.embedding_size x
  let xo ← mhaShape hp.embedding_size xo xo xo am kpm
  let x1 ← addShape x xo
  let xo2 ← layerNormShape hp.embedding_size x1
  let xo2 ← linearShape hp.embedding_size hp.dim_feedforward xo2
  let xo2 ← linearShape hp.dim_feedforward hp.embedding_size xo2
  addShape x1 xo2

/-- Shape of `DecoderBlock.forward`: post-norm masked self-attention,
post-norm cross-attention to the encoder memory, post-norm feed-forward. -/
def DecoderBlock.forwardShape (hp : HP) (x memory x_am x_kpm mem_am mem_kpm :
    Shape) : Option Shape := do
  let xo ← mhaShape hp.embedding_size x x x x_am x_kpm
  let x1 ← addShape x xo
  let x1 ← layerNormShape hp.embedding_size x1
  let xo2 ← mhaShape hp.embedding_size x1 memory memory mem_am mem_kpm
  let x2 ← addShape x1 xo2
  let x2 ← layerNormShape hp.embedding_size x2
  let xo3 ← linearShape hp.embedding_size hp.dim_feedforward x2
  let xo3 ← linearShape hp.dim_feedforward hp.embedding_size xo3
  let x3 ← addShape x2 xo3
  layerNormShape hp.embedding_size x3

/-- The positional code table sliced to the first `k` rows:
`self.pos_encoding(torch.arange(hp.max_mel_time))[:k]`. -/
def posCodesShape (hp : HP) (k : Nat) : Option Shape := do
  let pos ← embeddingShape hp.max_mel_time hp.embedding_size
    [hp.max_mel_time]
  sliceRowsShape k pos

/-- The encoder half of `TransformerTTS.forward` (lines 502–528): encoder
prenet, positional codes added, three encoder blocks sharing `src_mask`
and `src_key_padding_mask`, then `norm_memory`. -/
def encoderStackShape (hp : HP) (text sm skpm : Shape) : Option Shape := do
  let text_x ← EncoderPreNet.forwardShape hp text
  let posS ← (match text_x with
    | [_, s2, _] => posCodesShape hp s2
    | _ => none)
  let text_x ← addShape text_x posS
  let text_x ← EncoderBlock.forwardShape hp text_x sm skpm
  let text_x ← EncoderBlock.forwardShape hp text_x sm skpm
  let text_x ← EncoderBlock.forwardShape hp text_x sm skpm
  layerNormShape hp.embedding_size text_x

/-- The decoder half of `TransformerTTS.forward` (lines 531–561): decoder
prenet, positional codes added, three decoder blocks attending to the
memory, sharing `tgt_mask`, `tgt_key_padding_mask`, `memory_mask` and
`src_key_padding_mask`. -/
def decoderStackShape (hp : HP) (mel memory tm tkpm mm skpm : Shape) :
    Option Shape := do
  let mel_x ← DecoderPreNet.forwardShape hp mel
  let posL ← (match mel with
    | [_, l2, _] => posCodesShape hp l2
    | _ => none)
  let mel_x ← addShape mel_x posL
  let mel_x ← DecoderBlock.forwardShape hp mel_x memory tm tkpm mm skpm
  let mel_x ← DecoderBlock.forwardShape hp mel_x memory tm tkpm mm skpm
  DecoderBlock.forwardShape hp mel_x memory tm tkpm mm skpm

/-- The output heads and output masking of `TransformerTTS.forward`
(lines 563–587): `linear_1` mel head, postnet residual, `linear_2` gate
head, `bool_mel_mask`, the three `masked_fill`s and the final squeeze. -/
def outputHeadsShape (hp : HP) (mel_x tkpm : Shape) :
    Option (Shape × Shape × Shape) := do
  let mel_linear ← linearShape hp.embedding_size hp.mel_freq mel_x
  let post ← PostNet.forwardShape hp mel_linear
  let mel_postnet ← addShape mel_linear post
  let gate ← linearShape hp.embedding_size 1 mel_x
  let bmm ← unsqueezeLastShape tkpm
  let bmm ← repeat113Shape hp.mel_freq bmm
  let mel_linear2 ← maskedFillShape mel_linear bmm
  let mel_postnet2 ← maskedFillShape mel_postnet bmm
  let gm ← indexCol0Shape bmm
  let gm ← unsqueezeLastShape gm
  let gate2 ← maskedFillShape gate gm
  let gate3 ← squeeze2Shape gate2
  pure (mel_postnet2, mel_linear2, gate3)

/-- Shape of `TransformerTTS.forward` on `text (N, S)` and `mel (N2, L, F)`:
builds the five mask shapes, then runs the encoder stack, the decoder
stack, and the output heads with masking. -/
def TransformerTTS.forwardShape (hp : HP) (text mel : Shape) :
    Option (Shape × Shape × Shape) :=
  match text, mel with
  | [n, s], [n2, l, f] => do
    let skpm : Shape := [n, s]
    let sm : Shape := [s, s]
    let tkpm : Shape := [n2, l]
    let tm : Shape := [l, l]
    let mm : Shape := [l, s]
    let memory ← encoderStackShape hp [n, s] sm skpm
    let mel_x ← decoderStackShape hp [n2, l, f] memory tm tkpm mm skpm
    outputHeadsShape hp mel_x tkpm
  | _, _ => none

/-! ### Step-level model of `TransformerTTS.inference`

The loop is abstracted over the network: `gate k` is the last-step gate
logit `gate[:, -1]` produced by the forward pass of iteration `k` (batch
size is 1), and `sg` is the function `torch.sigmoid` applies to it in the
stop test.  Frame counts are tracked instead of frame contents: by the
shape law of `forward`, the `mel_postnet` of an iteration has exactly as
many time frames as the `mel_padded` buffer fed in.  The structure records
everything the loop returns or maintains. -/

/-- The observable outcome of `TransformerTTS.inference`:
`mel_postnet_frames` is the time-frame count of the returned `mel_postnet`
(the output of the *last* forward pass; `none` when the loop body never
ran), `mel_padded_frames` the frame count of the internal buffer,
`gate_outputs` the returned list of logged gate logits, `iters` the number
of loop iterations executed, and `stopped` whether the early-stop branch
was taken. -/
structure InferenceResult (α : Type) : Type where
  mel_postnet_frames : Option Nat
  mel_padded_frames : Nat
  gate_outputs : List α
  iters : Nat
  stopped : Bool
deriving DecidableEq, Repr

/-- One pass of the generation loop of `TransformerTTS.inference`, with
`fuel` iterations remaining, `k` iterations already executed, `melF` frames
in `mel_padded`, `postF` the frame count of the previous iteration's
`mel_postnet`, and `gates` the logits logged so far.  Each iteration runs
`forward` on the `melF`-frame buffer (so its `mel_postnet` has `melF`
frames), appends `mel_postnet[:, -1:, :]` to the buffer, then either breaks
(when `sg` of the last gate logit exceeds `θ`) or logs the logit and
continues. -/
def inference_loop {α : Type} [LinearOrder α] (gate : Nat → α) (sg : α → α)
    (θ : α) : Nat → Nat → Nat → Option Nat → List α → InferenceResult α
  | 0, k, melF, postF, gates =>
    ⟨postF, melF, gates, k, false⟩
  | fuel + 1, k, melF, postF, gates =>
    if θ < sg (gate k) then
      ⟨some melF, melF + 1, gates, k + 1, true⟩
    else
      inference_loop gate sg θ fuel (k + 1) (melF + 1) (some melF)
        (gates ++ [gate k])

/-- `TransformerTTS.inference text max_length gate_threshold`: the buffer
starts as the single all-zero SOS frame, `gate_outputs` starts empty, and
the loop runs for at most `max_length` iterations. -/
def TransformerTTS.inference {α : Type} [LinearOrder α] (gate : Nat → α)
    (sg : α → α) (θ : α) (max_length : Nat) : InferenceResult α :=
  inference_loop gate sg θ max_length 0 1 none []

/-- `torch.sigmoid` as a real function. -/
noncomputable def sigmoid (x : ℝ) : ℝ := 1 / (1 + Real.exp (-x))

theorem sigmoid_le_one (x : ℝ) : sigmoid x ≤ 1 := by
  have h : (0 : ℝ) < 1 + Real.exp (-x) := by positivity
  have h1 : (1 : ℝ) ≤ 1 + Real.exp (-x) := by
    have := (Real.exp_pos (-x)).le
    linarith
  exact div_le_one_of_le h1 h.le

theorem sigmoid_lt_half_of_neg {x : ℝ} (hx : x < 0) : sigmoid x < 1 / 2 := by
  have h : (0 : ℝ) < 1 + Real.exp (-x) := by positivity
  have he : (1 : ℝ) < Real.exp (-x) := by
    calc (1 : ℝ) = Real.exp 0 := Real.exp_zero.symm
    _ < Real.exp (-x) := Real.exp_lt_exp.mpr (by linarith)
  rw [sigmoid, div_lt_div_iff h (by norm_num : (0:ℝ) < 2)]
  linarith

theorem half_lt_sigmoid_of_pos {x : ℝ} (hx : 0 < x) : 1 / 2 < sigmoid x := by
  have h : (0 : ℝ) < 1 + Real.exp (-x) := by positivity
  have he : Real.exp (-x) < 1 := by
    calc Real.exp (-x) < Real.exp 0 := Real.exp_lt_exp.mpr (by linarith)
    _ = 1 := Real.exp_zero
  rw [sigmoid, div_lt_div_iff (by norm_num : (0:ℝ) < 2) h]
  linarith

/-- When the stop test fails at every step from `k` on, the loop burns all
its fuel: the last forward output has `melF + fuel - 1` frames (none when
there was no iteration), the buffer grows by `fuel`, the logits of steps
`k, …, k + fuel - 1` are all logged, and the loop ends unstopped. -/
theorem inference_loop_no_stop {α : Type} [LinearOrder α] (gate : Nat → α)
    (sg : α → α) (θ : α) :
    ∀ fuel k melF postF gates,
      (∀ j, k ≤ j → j < k + fuel → ¬ θ < sg (gate j)) →
      inference_loop gate sg θ fuel k melF postF gates =
        ⟨(if fuel = 0 then postF else some (melF + fuel - 1)), melF + fuel,
          gates ++ (List.range' k fuel).map gate, k + fuel, false⟩ := by
  intro fuel
  induction fuel with
  | zero => intro k melF postF gates h; simp [inference_loop]
  | succ m ih =>
    intro k melF postF gates h
    rw [inference_loop, if_neg (h k (by omega) (by omega)),
      ih (k + 1) (melF + 1) (some melF) (gates ++ [gate k])
        (fun j h1 h2 => h j (by omega) (by omega))]
    have hrange : List.range' k (m + 1) = k :: List.range' (k + 1) m := by
      rw [List.range'_succ]
    cases m with
    | zero => simp [hrange]
    | succ m2 =>
      rw [hrange]
      simp only [InferenceResult.mk.injEq]
      refine ⟨?_, by omega, by simp, by omega, trivial⟩
      rw [if_neg (by omega), if_neg (by omega)]
      congr 1
      omega

/-- When the stop test fails for the `d` steps after `k` and fires at step
`k + d`, with enough fuel left, the loop breaks there: the returned
`mel_postnet` keeps the `melF + d` frames of that iteration's input buffer,
the buffer ends with one more frame, exactly the `d` earlier logits are
logged (the firing step's logit is not), and the loop stops early. -/
theorem inference_loop_stop_at {α : Type} [LinearOrder α] (gate : Nat → α)
    (sg : α → α) (θ : α) :
    ∀ d fuel k melF postF gates, (∀ j, j < d → ¬ θ < sg (gate (k + j))) →
      θ < sg (gate (k + d)) → d < fuel →
      inference_loop gate sg θ fuel k melF postF gates =
        ⟨some (melF + d), melF + d + 1,
          gates ++ (List.range' k d).map gate, k + d + 1, true⟩ := by
  intro d
  induction d with
  | zero =>
    intro fuel k melF postF gates h1 h2 hf
    cases fuel with
    | zero => omega
    | succ f =>
      rw [inference_loop, if_pos (by simpa using h2)]
      simp
  | succ d2 ih =>
    intro fuel k melF postF gates h1 h2 hf
    cases fuel with
    | zero => omega
    | succ f =>
      rw [inference_loop, if_neg (by simpa using h1 0 (by omega))]
      rw [ih f (k + 1) (melF + 1) (some melF) (gates ++ [gate k])
        (fun j hj => by
          have e : k + 1 + j = k + (j + 1) := by omega
          rw [e]; exact h1 (j + 1) (by omega))
        (by
          have e : k + 1 + d2 = k + (d2 + 1) := by omega
          rw [e]; exact h2)
        (by omega)]
      simp only [InferenceResult.mk.injEq]
      refine ⟨by congr 1; omega, by omega, ?_, by omega, trivial⟩
      rw [List.range'_succ]
      simp

/-- The loop never executes more iterations than it has fuel. -/
theorem inference_loop_iters_le {α : Type} [LinearOrder α] (gate : Nat → α)
    (sg : α → α) (θ : α) :
    ∀ fuel k melF postF gates,
      (inference_loop gate sg θ fuel k melF postF gates).iters ≤ k + fuel := by
  intro fuel
  induction fuel with
  | zero => intro k melF postF gates; simp [inference_loop]
  | succ m ih =>
    intro k melF postF gates
    rw [inference_loop]
    split
    · simp
    · exact le_trans (ih (k + 1) (melF + 1) (some melF) _) (by omega)

/-! ### Attribute state of the `TransformerTTS` object

`TransformerTTS.forward` assigns the five masks to `self.*` attributes
(lines 432–499).  Beyond those, a call touches two kinds of model-object
state: the learned parameters (weights and biases, which `forward` itself
never writes — only the out-of-scope optimizer does), and the running
statistics of the nine `nn.BatchNorm1d` submodules (`bn_1`–`bn_3` of
`EncoderPreNet`, `bn_1`–`bn_6` of `PostNet`): in training mode each of
those layers updates its `running_mean`/`running_var` buffers in place
with the default momentum `0.1` and increments `num_batches_tracked`; in
eval mode the buffers are only read.  The batch moments each layer
observes depend on the data flowing through it, so the state transition
is parametric in them. -/

/-- The running-statistics buffers of one `nn.BatchNorm1d` submodule
(per-channel mean and variance, and the batch counter). -/
structure BNStats where
  running_mean : Nat → ℚ
  running_var : Nat → ℚ
  num_batches_tracked : Nat

/-- The in-place buffer update a training-mode `nn.BatchNorm1d` performs:
exponential moving averages with momentum `m` of the observed batch
moments, and an incremented batch counter. -/
def BNStats.update (m : ℚ) (batch_mean batch_var : Nat → ℚ)
    (s : BNStats) : BNStats :=
  ⟨fun c => (1 - m) * s.running_mean c + m * batch_mean c,
    fun c => (1 - m) * s.running_var c + m * batch_var c,
    s.num_batches_tracked + 1⟩

/-- The attribute state of a `TransformerTTS` object: the learned
parameters (abstracted into one field), the running statistics of the
nine `BatchNorm1d` submodules (indexed `0`–`8`: `EncoderPreNet.bn_1`–
`bn_3`, then `PostNet.bn_1`–`bn_6`), and the five mask attributes,
absent (`none`) until a `forward` call first sets them. -/
structure TransformerTTSState where
  params : Nat → ℚ
  bn_stats : Nat → BNStats
  src_key_padding_mask : Option (Nat → Nat → MaskV)
  src_mask : Option (Nat → Nat → MaskV)
  tgt_key_padding_mask : Option (Nat → Nat → MaskV)
  tgt_mask : Option (Nat → Nat → MaskV)
  memory_mask : Option (Nat → Nat → MaskV)

/-- The effect of one `TransformerTTS.forward` call on the object's state:
the five `self.<mask> = …` assignments of lines 432–499 store the freshly
built masks on the model, and — when the module is in training mode —
each of the nine `BatchNorm1d` submodules it runs updates its running
statistics in place (`bn_mean i`/`bn_var i` being the batch moments layer
`i` observes during this call); the learned parameters are not written. -/
def TransformerTTS.forward_state (st : TransformerTTSState)
    (training : Bool) (bn_mean bn_var : Nat → Nat → ℚ)
    (text_len mel_len : Nat → Nat) (S L : Nat) : TransformerTTSState :=
  { st with
    bn_stats :=
      if training then
        fun i => BNStats.update (1/10) (bn_mean i) (bn_var i) (st.bn_stats i)
      else st.bn_stats
    src_key_padding_mask := some (src_key_padding_mask text_len S)
    src_mask := some (src_mask S)
    tgt_key_padding_mask := some (tgt_key_padding_mask mel_len L)
    tgt_mask := some (tgt_mask L)
    memory_mask := some (memory_mask L S) }

/-- A freshly constructed model: no mask attribute exists yet, and every
`BatchNorm1d` starts with zero running mean, unit running variance and an
untracked batch count. -/
def TransformerTTSState.fresh (params : Nat → ℚ) : TransformerTTSState :=
  ⟨params, fun _ => ⟨fun _ => 0, fun _ => 1, 0⟩, none, none, none, none, none⟩

/-! ### Evaluation lemmas for the shape pipeline -/

theorem conv1dShape_same (cin cout k : Nat) (hk : Odd k) (n l : Nat)
    (hl : 1 ≤ l) :
    conv1dShape cin cout k ((k - 1) / 2) [n, cin, l] = some [n, cout, l] := by
  obtain ⟨m, hm⟩ := hk
  subst hm
  simp only [conv1dShape]
  rw [if_pos ⟨trivial, by omega⟩]
  have e : l + 2 * ((2 * m + 1 - 1) / 2) + 1 - (2 * m + 1) = l := by omega
  rw [e]

theorem encoderPreNetShape_eval (hp : HP) (hk : Odd hp.encoder_kernel_size)
    (n s : Nat) (hs : 1 ≤ s) :
    EncoderPreNet.forwardShape hp [n, s] = some [n, s, hp.embedding_size] := by
  simp [EncoderPreNet.forwardShape, embeddingShape, linearShape,
    transpose12Shape, batchNorm1dShape, conv1dShape_same _ _ _ hk _ _ hs]

theorem decoderPreNetShape_eval (hp : HP) (n l : Nat) :
    DecoderPreNet.forwardShape hp [n, l, hp.mel_freq] =
      some [n, l, hp.embedding_size] := by
  simp [DecoderPreNet.forwardShape, linearShape]

theorem postNetShape_eval (hp : HP) (hk : Odd hp.postnet_kernel_size)
    (n l : Nat) (hl : 1 ≤ l) :
    PostNet.forwardShape hp [n, l, hp.mel_freq] =
      some [n, l, hp.mel_freq] := by
  simp [PostNet.forwardShape, transpose12Shape, batchNorm1dShape,
    conv1dShape_same _ _ _ hk _ _ hl]

theorem encoderBlockShape_eval (hp : HP) (n s : Nat) :
    EncoderBlock.forwardShape hp [n, s, hp.embedding_size] [s, s] [n, s] =
      some [n, s, hp.embedding_size] := by
  simp [EncoderBlock.forwardShape, layerNormShape, mhaShape, addShape,
    broadcastShape, broadcastRev, broadcast2, linearShape]

theorem decoderBlockShape_eval (hp : HP) (n l s : Nat) :
    DecoderBlock.forwardShape hp [n, l, hp.embedding_size]
      [n, s, hp.embedding_size] [l, l] [n, l] [l, s] [n, s] =
      some [n, l, hp.embedding_size] := by
  simp [DecoderBlock.forwardShape, layerNormShape, mhaShape, addShape,
    broadcastShape, broadcastRev, broadcast2, linearShape]

theorem posCodesShape_eval (hp : HP) (k : Nat) (hk : k ≤ hp.max_mel_time) :
    posCodesShape hp k = some [k, hp.embedding_size] := by
  simp [posCodesShape, embeddingShape, sliceRowsShape, Nat.min_eq_right hk]

theorem encoderStackShape_eval (hp : HP) (hk : Odd hp.encoder_kernel_size)
    (n s : Nat) (hs : 1 ≤ s) (hsm : s ≤ hp.max_mel_time) :
    encoderStackShape hp [n, s] [s, s] [n, s] =
      some [n, s, hp.embedding_size] := by
  rw [encoderStackShape]
  rw [encoderPreNetShape_eval hp hk n s hs]
  simp [posCodesShape_eval hp s hsm, addShape, broadcastShape, broadcastRev,
    broadcast2, encoderBlockShape_eval, layerNormShape]

theorem decoderStackShape_eval (hp : HP) (n l s : Nat)
    (hlm : l ≤ hp.max_mel_time) :
    decoderStackShape hp [n, l, hp.mel_freq] [n, s, hp.embedding_size]
      [l, l] [n, l] [l, s] [n, s] = some [n, l, hp.embedding_size] := by
  rw [decoderStackShape]
  rw [decoderPreNetShape_eval hp n l]
  simp [posCodesShape_eval hp l hlm, addShape, broadcastShape, broadcastRev,
    broadcast2, decoderBlockShape_eval]

theorem outputHeadsShape_eval (hp : HP) (hk : Odd hp.postnet_kernel_size)
    (n l : Nat) (hl : 1 ≤ l) (hf : 1 ≤ hp.mel_freq) :
    outputHeadsShape hp [n, l, hp.embedding_size] [n, l] =
      some ([n, l, hp.mel_freq], [n, l, hp.mel_freq], [n, l]) := by
  rw [outputHeadsShape]
  simp [linearShape, postNetShape_eval hp hk n l hl, addShape,
    broadcastShape, broadcastRev, broadcast2, unsqueezeLastShape,
    repeat113Shape, maskedFillShape, indexCol0Shape, squeeze2Shape, hf]

theorem bool_mel_mask_eq (mel_len : Nat → Nat) (L n t : Nat) :
    bool_mel_mask mel_len L n t = decide (mel_len n ≤ t) := by
  by_cases h : t < mel_len n <;>
    simp [bool_mel_mask, tgt_key_padding_mask,
      get_mask_from_sequence_lengths, h] <;> omega

/-! ### The claims -/

/-- C1 counterexample.  With `text_len = 2` and `S = 2`, the total additive
mask the encoder blocks apply at batch 0, query 0, key 1 is `-inf` even
though key position 1 is *below* the example's true text length 2, so the
encoder self-attention mask is not "padding only": the causal `src_mask`
also restricts it. -/
theorem encoder_attn_mask_not_padding_only :
    encoder_self_attn_mask (fun _ => 2) 2 0 0 1 = MaskV.ninf ∧ ¬ (2 ≤ 1) := by
  constructor
  · rfl
  · decide

/-- C1 (amended): the mask applied in every `EncoderBlock`'s self-attention
combines the padding restriction with a causal one: for batch `n`, query
`i`, key `j` inside the grid, the additive entry is `-inf` exactly when
`j ≥ text_len n` (padding) **or** `j > i` (causal), and `0` exactly
otherwise. -/
theorem encoder_attn_mask_padding_and_causal (text_len : Nat → Nat)
    (S n i j : Nat) (hi : i < S) (hj : j < S) :
    (encoder_self_attn_mask text_len S n i j = MaskV.ninf ↔
      text_len n ≤ j ∨ i < j)
    ∧ (encoder_self_attn_mask text_len S n i j = MaskV.zero ↔
      j < text_len n ∧ j ≤ i) := by
  by_cases h1 : j < text_len n <;> by_cases h2 : i + 1 ≤ j <;>
    simp [encoder_self_attn_mask, MaskV.add, src_mask, src_key_padding_mask,
      get_mask_from_sequence_lengths, triu_true, h1, h2] <;> omega

theorem encoder_attn_mask_padding_and_causal_witness :
    (encoder_self_attn_mask (fun _ => 2) 3 0 2 1 = MaskV.ninf ↔
      2 ≤ 1 ∨ 2 < 1)
    ∧ (encoder_self_attn_mask (fun _ => 2) 3 0 2 1 = MaskV.zero ↔
      1 < 2 ∧ 1 ≤ 2) :=
  encoder_attn_mask_padding_and_causal (fun _ => 2) 3 0 2 1 (by decide)
    (by decide)

/-- C4: for every length vector with `1 ≤ length ≤ padded width`, both
padding masks built in `TransformerTTS.forward` put `-inf` exactly at the
positions at or beyond the example's true length and `0` exactly below
it. -/
theorem padding_mask_characterization (text_len mel_len : Nat → Nat)
    (S L n j t : Nat) :
    (1 ≤ text_len n → text_len n ≤ S → j < S →
      (src_key_padding_mask text_len S n j = MaskV.ninf ↔ text_len n ≤ j)
      ∧ (src_key_padding_mask text_len S n j = MaskV.zero ↔ j < text_len n))
    ∧ (1 ≤ mel_len n → mel_len n ≤ L → t < L →
      (tgt_key_padding_mask mel_len L n t = MaskV.ninf ↔ mel_len n ≤ t)
      ∧ (tgt_key_padding_mask mel_len L n t = MaskV.zero ↔ t < mel_len n)) := by
  constructor
  · intro h1 h2 h3
    by_cases h : j < text_len n <;>
      simp [src_key_padding_mask, get_mask_from_sequence_lengths, h] <;> omega
  · intro h1 h2 h3
    by_cases h : t < mel_len n <;>
      simp [tgt_key_padding_mask, get_mask_from_sequence_lengths, h] <;> omega

theorem padding_mask_characterization_witness :
    ((src_key_padding_mask (fun _ => 2) 3 0 2 = MaskV.ninf ↔ 2 ≤ 2)
      ∧ (src_key_padding_mask (fun _ => 2) 3 0 2 = MaskV.zero ↔ 2 < 2))
    ∧ ((tgt_key_padding_mask (fun _ => 1) 4 0 0 = MaskV.ninf ↔ 1 ≤ 0)
      ∧ (tgt_key_padding_mask (fun _ => 1) 4 0 0 = MaskV.zero ↔ 0 < 1)) :=
  ⟨(padding_mask_characterization (fun _ => 2) (fun _ => 1) 3 4 0 2 0).1
      (by decide) (by decide) (by decide),
    (padding_mask_characterization (fun _ => 2) (fun _ => 1) 3 4 0 2 0).2
      (by decide) (by decide) (by decide)⟩

/-- C5: the square causal mask `tgt_mask` has `-inf` exactly on the
strictly-upper triangle (`j > i`; the diagonal stays attendable at `0`),
and the rectangular `L×S` `memory_mask` follows the same rule. -/
theorem causal_mask_characterization (T L S i j : Nat) :
    (i < T → j < T →
      (tgt_mask T i j = MaskV.ninf ↔ i < j)
      ∧ (tgt_mask T i j = MaskV.zero ↔ j ≤ i))
    ∧ (i < L → j < S →
      (memory_mask L S i j = MaskV.ninf ↔ i < j)
      ∧ (memory_mask L S i j = MaskV.zero ↔ j ≤ i)) := by
  constructor <;> intro h1 h2 <;> by_cases h : i < j <;>
    simp [tgt_mask, memory_mask, triu_true, h] <;> omega

theorem causal_mask_characterization_witness :
    ((tgt_mask 3 1 2 = MaskV.ninf ↔ 1 < 2)
      ∧ (tgt_mask 3 1 2 = MaskV.zero ↔ 2 ≤ 1))
    ∧ ((memory_mask 3 4 1 2 = MaskV.ninf ↔ 1 < 2)
      ∧ (memory_mask 3 4 1 2 = MaskV.zero ↔ 2 ≤ 1)) :=
  ⟨(causal_mask_characterization 3 3 4 1 2).1 (by decide) (by decide),
    (causal_mask_characterization 3 3 4 1 2).2 (by decide) (by decide)⟩

/-- C3: after the output-masking step of `TransformerTTS.forward`, for every
batch example `n`: at every padded step `t ≥ mel_len n` both mel outputs
are `0` at every frequency and the gate logit equals the constant
`1e3 = 1000`, while at every step `t < mel_len n` all three outputs keep
their unmasked values. -/
theorem forward_output_masking (rawL rawP : Nat → Nat → Nat → ℚ)
    (rawG : Nat → Nat → ℚ) (mel_len : Nat → Nat) (L n t f : Nat) :
    (mel_len n ≤ t →
      mel_linear_masked rawL mel_len L n t f = 0
      ∧ mel_postnet_masked rawP mel_len L n t f = 0
      ∧ gate_masked rawG mel_len L n t = 1000)
    ∧ (t < mel_len n →
      mel_linear_masked rawL mel_len L n t f = rawL n t f
      ∧ mel_postnet_masked rawP mel_len L n t f = rawP n t f
      ∧ gate_masked rawG mel_len L n t = rawG n t) := by
  constructor <;> intro h <;>
    simp [mel_linear_masked, mel_postnet_masked, gate_masked,
      bool_mel_mask_eq, h] <;> omega

theorem forward_output_masking_witness :
    (mel_linear_masked (fun _ _ _ => 5) (fun _ => 2) 4 0 3 1 = 0
      ∧ mel_postnet_masked (fun _ _ _ => 7) (fun _ => 2) 4 0 3 1 = 0
      ∧ gate_masked (fun _ _ => 9) (fun _ => 2) 4 0 3 = 1000)
    ∧ (mel_linear_masked (fun _ _ _ => 5) (fun _ => 2) 4 0 1 1 = 5
      ∧ mel_postnet_masked (fun _ _ _ => 7) (fun _ => 2) 4 0 1 1 = 7
      ∧ gate_masked (fun _ _ => 9) (fun _ => 2) 4 0 1 = 9) :=
  ⟨(forward_output_masking (fun _ _ _ => 5) (fun _ _ _ => 7) (fun _ _ => 9)
      (fun _ => 2) 4 0 3 1).1 (by decide),
    (forward_output_masking (fun _ _ _ => 5) (fun _ _ _ => 7) (fun _ _ => 9)
      (fun _ => 2) 4 0 1 1).2 (by decide)⟩

/-- C6: on a valid configuration, for inputs `text (N, S)` and
`mel (N, L, F)` with `F = mel_freq`, nonempty sequence axes, and both
sequence axes within the positional table, `TransformerTTS.forward`
returns tensors of shapes `(N, L, F)`, `(N, L, F)` and `(N, L)` (the gate
head's trailing singleton dimension removed by the squeeze). -/
theorem forward_shape_law (hp : HP) (N S L F : Nat) (hv : hp.valid)
    (hS : 1 ≤ S) (hL : 1 ≤ L) (hSm : S ≤ hp.max_mel_time)
    (hLm : L ≤ hp.max_mel_time) (hF : F = hp.mel_freq) :
    TransformerTTS.forwardShape hp [N, S] [N, L, F] =
      some ([N, L, F], [N, L, F], [N, L]) := by
  obtain ⟨hk1, hk2, hmf, hdiv⟩ := hv
  subst hF
  simp [TransformerTTS.forwardShape,
    encoderStackShape_eval hp hk1 N S hS hSm,
    decoderStackShape_eval hp N L S hLm,
    outputHeadsShape_eval hp hk2 N L hL hmf]

theorem forward_shape_law_witness :
    TransformerTTS.forwardShape ⟨4, 2, 3, 3, 2, 3, 2, 5, 8⟩ [2, 3] [2, 4, 2] =
      some ([2, 4, 2], [2, 4, 2], [2, 4]) :=
  forward_shape_law ⟨4, 2, 3, 3, 2, 3, 2, 5, 8⟩ 2 3 4 2
    ⟨⟨1, rfl⟩, ⟨1, rfl⟩, by decide, by decide⟩
    (by decide) (by decide) (by decide) (by decide) rfl

/-- C7: `DecoderPreNet.forward` never consults the module's train/eval
mode: its output is the same function of the inputs and dropout draws for
any two modes, and that common computation applies `F.dropout` with
`p = 0.5` and the `training` flag literally `true` after each of the two
linear+ReLU stages. -/
theorem decoder_prenet_dropout_always_on (m : DecoderPreNet)
    (keep1 keep2 : Nat → Bool) (x : Nat → ℚ) (mode mode2 : Bool) :
    m.forward mode keep1 keep2 x = m.forward mode2 keep1 keep2 x
    ∧ m.forward mode keep1 keep2 x =
      dropoutF (1/2) true keep2
        (fun i => relu
          (linear_map m.embedding_size m.W2 m.b2
            (dropoutF (1/2) true keep1
              (fun i => relu (linear_map m.mel_freq m.W1 m.b1 x i))) i)) :=
  ⟨rfl, rfl⟩

/-- C2 counterexample.  Calling inference with `max_length = 3` and
threshold `2 > 1` (the network's last-step gate logits all `0`, whose
sigmoid is `1/2`): the returned `mel_postnet` is the last forward pass's
output and has 3 frames, not the 4 frames of the accumulated buffer. -/
theorem inference_maxlen3_not_four_frames :
    (TransformerTTS.inference (fun _ => (0 : ℝ)) sigmoid 2 3).mel_postnet_frames
      ≠ some 4
    ∧ (TransformerTTS.inference (fun _ => (0 : ℝ)) sigmoid 2 3).mel_postnet_frames
      = some 3 := by
  have h : ∀ j : Nat, (0:Nat) ≤ j → j < 0 + 3 → ¬ (2:ℝ) < sigmoid ((fun _ => (0:ℝ)) j) := by
    intro j h1 h2
    have := sigmoid_le_one (0 : ℝ)
    simp only [not_lt]
    linarith
  rw [TransformerTTS.inference, inference_loop_no_stop _ _ _ 3 0 1 none [] h]
  refine ⟨by simp, by simp⟩

/-- C2 (amended): with `max_length = 3` and any threshold above 1, the
returned `mel_postnet` has exactly 3 frames — it is the output of the
last forward pass, run on the then-3-frame buffer — while the accumulated
internal buffer (start frame plus the 3 generated frames) has 4 frames
and is not what `inference` returns. -/
theorem inference_maxlen3_frame_counts (gate : Nat → ℝ) (θ : ℝ)
    (hθ : 1 < θ) :
    (TransformerTTS.inference gate sigmoid θ 3).mel_postnet_frames = some 3
    ∧ (TransformerTTS.inference gate sigmoid θ 3).mel_padded_frames = 4 := by
  have h : ∀ j : Nat, (0:Nat) ≤ j → j < 0 + 3 → ¬ θ < sigmoid (gate j) := by
    intro j h1 h2
    have := sigmoid_le_one (gate j)
    simp only [not_lt]
    linarith
  rw [TransformerTTS.inference, inference_loop_no_stop _ _ _ 3 0 1 none [] h]
  exact ⟨by simp, by simp⟩

theorem inference_maxlen3_frame_counts_witness :
    (TransformerTTS.inference (fun _ => (1 : ℝ)) sigmoid 2 3).mel_postnet_frames
      = some 3
    ∧ (TransformerTTS.inference (fun _ => (1 : ℝ)) sigmoid 2 3).mel_padded_frames
      = 4 :=
  inference_maxlen3_frame_counts (fun _ => (1 : ℝ)) 2 one_lt_two

/-- C8: with any threshold strictly above 1 the stop branch is unreachable
(`torch.sigmoid` never exceeds 1), so the loop runs exactly `max_length`
iterations and ends in the TRUNCATED state; and for any threshold at all
the loop terminates within `max_length` iterations. -/
theorem inference_termination (gate : Nat → ℝ) (θ θ2 : ℝ)
    (max_length : Nat) (hθ : 1 < θ) :
    (TransformerTTS.inference gate sigmoid θ max_length).stopped = false
    ∧ (TransformerTTS.inference gate sigmoid θ max_length).iters = max_length
    ∧ (TransformerTTS.inference gate sigmoid θ2 max_length).iters
        ≤ max_length := by
  have h : ∀ j : Nat, (0:Nat) ≤ j → j < 0 + max_length →
      ¬ θ < sigmoid (gate j) := by
    intro j h1 h2
    have := sigmoid_le_one (gate j)
    simp only [not_lt]
    linarith
  refine ⟨?_, ?_, ?_⟩
  · rw [TransformerTTS.inference,
      inference_loop_no_stop _ _ _ max_length 0 1 none [] h]
  · rw [TransformerTTS.inference,
      inference_loop_no_stop _ _ _ max_length 0 1 none [] h]
    simp
  · rw [TransformerTTS.inference]
    have := inference_loop_iters_le gate sigmoid θ2 max_length 0 1 none []
    simpa using this

theorem inference_termination_witness :
    (TransformerTTS.inference (fun _ => (0 : ℝ)) sigmoid 2 5).stopped = false
    ∧ (TransformerTTS.inference (fun _ => (0 : ℝ)) sigmoid 2 5).iters = 5
    ∧ (TransformerTTS.inference (fun _ => (0 : ℝ)) sigmoid 0 5).iters ≤ 5 :=
  inference_termination (fun _ => (0 : ℝ)) 2 0 5 one_lt_two

/-- C10: the returned `gate_outputs` excludes the gate value of the step
that fired: when the stop test first fires at iteration `k` (1-indexed),
`gate_outputs` is exactly the list of the `k - 1` last-step gate logits of
the preceding iterations (empty for `k = 1`); when the gate never fires it
holds exactly `max_length` entries. -/
theorem inference_gate_outputs_count (gate : Nat → ℝ) (θ : ℝ)
    (max_length k : Nat) :
    (1 ≤ k → k ≤ max_length →
      (∀ j, j < k - 1 → ¬ θ < sigmoid (gate j)) →
      θ < sigmoid (gate (k - 1)) →
      (TransformerTTS.inference gate sigmoid θ max_length).gate_outputs
        = (List.range (k - 1)).map gate
      ∧ (TransformerTTS.inference gate sigmoid θ max_length).gate_outputs.length
        = k - 1
      ∧ (TransformerTTS.inference gate sigmoid θ max_length).stopped = true)
    ∧ ((∀ j, j < max_length → ¬ θ < sigmoid (gate j)) →
      (TransformerTTS.inference gate sigmoid θ max_length).gate_outputs
        = (List.range max_length).map gate
      ∧ (TransformerTTS.inference gate sigmoid θ max_length).gate_outputs.length
        = max_length) := by
  constructor
  · intro h1 h2 h3 h4
    rw [TransformerTTS.inference,
      inference_loop_stop_at gate sigmoid θ (k - 1) max_length 0 1 none []
        (fun j hj => by simpa using h3 j hj) (by simpa using h4)
        (by omega)]
    refine ⟨by simp [List.range_eq_range'], by simp, rfl⟩
  · intro h
    rw [TransformerTTS.inference,
      inference_loop_no_stop gate sigmoid θ max_length 0 1 none []
        (fun j hj1 hj2 => h j (by omega))]
    refine ⟨by simp [List.range_eq_range'], by simp⟩

theorem inference_gate_outputs_count_witness :
    ((TransformerTTS.inference (fun j => if j = 0 then (-1 : ℝ) else 1)
        sigmoid (1/2) 3).gate_outputs
      = (List.range 1).map (fun j => if j = 0 then (-1 : ℝ) else 1)
    ∧ (TransformerTTS.inference (fun j => if j = 0 then (-1 : ℝ) else 1)
        sigmoid (1/2) 3).gate_outputs.length = 1
    ∧ (TransformerTTS.inference (fun j => if j = 0 then (-1 : ℝ) else 1)
        sigmoid (1/2) 3).stopped = true) :=
  (inference_gate_outputs_count (fun j => if j = 0 then (-1 : ℝ) else 1)
      (1/2) 3 2).1 (by decide) (by decide)
    (fun j hj => by
      have hj0 : j = 0 := by omega
      subst hj0
      simp only [if_pos rfl, not_lt]
      exact (sigmoid_lt_half_of_neg (by norm_num)).le)
    (by
      show (1:ℝ)/2 < sigmoid 1
      exact half_lt_sigmoid_of_pos one_pos)

/-- C9 counterexample.  On a freshly constructed model (no mask attributes
set), one `forward` call — even in eval mode, where the batch-norm buffers
stay put — leaves `self.src_mask` set: a tensor created during the
invocation persists on the model, so the call does not leave the object's
non-parameter state unchanged. -/
theorem forward_state_masks_persist :
    (TransformerTTS.forward_state (TransformerTTSState.fresh fun _ => 0)
        false (fun _ _ => 0) (fun _ _ => 0)
        (fun _ => 1) (fun _ => 1) 1 1).src_mask.isSome = true
    ∧ (TransformerTTSState.fresh fun _ => 0).src_mask.isSome = false
    ∧ TransformerTTS.forward_state (TransformerTTSState.fresh fun _ => 0)
        false (fun _ _ => 0) (fun _ _ => 0)
        (fun _ => 1) (fun _ => 1) 1 1 ≠ TransformerTTSState.fresh fun _ => 0 := by
  refine ⟨rfl, rfl, fun h => ?_⟩
  have h2 := congrArg (fun st => st.src_mask.isSome) h
  simp [TransformerTTS.forward_state, TransformerTTSState.fresh] at h2

/-- C9 (amended): a `forward` call mutates exactly the five mask
attributes — storing the five freshly built masks on the model — plus, in
training mode, the running statistics of the nine `BatchNorm1d` submodules
it runs (momentum-`0.1` moving averages of the observed batch moments and
an incremented batch counter, updated in place); in eval mode the
batch-norm buffers are unchanged, and the learned parameters are never
written by the call itself. -/
theorem forward_state_frame (st : TransformerTTSState) (mode : Bool)
    (bn_mean bn_var : Nat → Nat → ℚ) (text_len mel_len : Nat → Nat)
    (S L : Nat) :
    (TransformerTTS.forward_state st mode bn_mean bn_var text_len mel_len
        S L).params = st.params
    ∧ (TransformerTTS.forward_state st false bn_mean bn_var text_len mel_len
        S L).bn_stats = st.bn_stats
    ∧ (TransformerTTS.forward_state st true bn_mean bn_var text_len mel_len
        S L).bn_stats
        = (fun i => BNStats.update (1/10) (bn_mean i) (bn_var i) (st.bn_stats i))
    ∧ (TransformerTTS.forward_state st mode bn_mean bn_var text_len mel_len
        S L).src_key_padding_mask = some (src_key_padding_mask text_len S)
    ∧ (TransformerTTS.forward_state st mode bn_mean bn_var text_len mel_len
        S L).src_mask = some (src_mask S)
    ∧ (TransformerTTS.forward_state st mode bn_mean bn_var text_len mel_len
        S L).tgt_key_padding_mask = some (tgt_key_padding_mask mel_len L)
    ∧ (TransformerTTS.forward_state st mode bn_mean bn_var text_len mel_len
        S L).tgt_mask = some (tgt_mask L)
    ∧ (TransformerTTS.forward_state st mode bn_mean bn_var text_len mel_len
        S L).memory_mask = some (memory_mask L S) :=
  ⟨rfl, rfl, rfl, rfl, rfl, rfl, rfl, rfl⟩
